import Mathlib

/-!
Verification development for the product search/recommendation core of the
`ecommerce_project` repository (`src/app.py`).

The Python program keeps three process-wide structures — `PRODUCTS_MAP`
(product id → raw record), `PRODUCT_NAMES_MAP` (trimmed product name →
product id) and `RECOMMENDATIONS` (product id → list of recommendation
stubs) — loaded from JSON files by `load_data`, and serves
`normalize_product`, `get_top_products` and the three-stage
`search_products` over them.

We shallowly embed the JSON/Python values as the inductive `PyVal`, the
dictionaries as insertion-ordered association lists, and the fallible
Python operations (attribute access on a non-dict, `.lower()` on a
non-string, unhashable dict keys, `KeyError`, `TypeError`) as
`Except Unit` computations, so that an exception raised by the Python code
corresponds exactly to an `Except.error` of the embedded function.

Simplifications that do not affect any claim below, each noted in place:
Python `float` strings "inf"/"nan"/underscored digits are rejected by the
embedded parser (floats are modelled as rationals), `str.lower`/`str.strip`
act only on ASCII letters and the four ASCII whitespace characters, and the
`str()` rendering of a float is the exact decimal when the denominator is a
power of ten.
-/

/-- A Python value as produced by `json.load` (floats modelled as rationals). -/
inductive PyVal where
  | vnone : PyVal
  | vbool : Bool → PyVal
  | vint : Int → PyVal
  | vfloat : ℚ → PyVal
  | vstr : String → PyVal
  | vlist : List PyVal → PyVal
  | vdict : List (String × PyVal) → PyVal

/-- Lookup in a Python dict (modelled as an insertion-ordered association
list with unique keys): the value bound to `key`, if any. -/
def alookup {α : Type} : List (String × α) → String → Option α
  | [], _ => none
  | (k, v) :: rest, key => if k = key then some v else alookup rest key

/-- `d[k] = v` on a Python dict: overwrite in place (keeping the key's
original position) when the key is present, append otherwise. -/
def dinsert {α : Type} : List (String × α) → String → α → List (String × α)
  | [], k, v => [(k, v)]
  | (k', v') :: rest, k, v =>
      if k' = k then (k, v) :: rest else (k', v') :: dinsert rest k v

/-- `d.get(k, dflt)` on a dict's entries: the bound value when the key is
present (even when that value is `None`), the default otherwise. -/
def dGetD (l : List (String × PyVal)) (k : String) (dflt : PyVal) : PyVal :=
  (alookup l k).getD dflt

/-- `needle in hay` on lists of characters: `needle` occurs contiguously. -/
def infixAux : List Char → List Char → Bool
  | needle, [] => needle.isEmpty
  | needle, c :: rest => needle.isPrefixOf (c :: rest) || infixAux needle rest

/-- Python's `needle in hay` substring test on strings. -/
def pyInStr (needle hay : String) : Bool :=
  infixAux needle.toList hay.toList

/-- Python `s.lower()` (ASCII case folding, as noted in the header). -/
def pyLower (s : String) : String :=
  String.mk (s.toList.map Char.toLower)

/-- Python `s.strip()`: drop leading and trailing whitespace. -/
def pyStrip (s : String) : String :=
  String.mk (((s.toList.dropWhile Char.isWhitespace).reverse.dropWhile
    Char.isWhitespace).reverse)

/-- Numeric value of an ASCII digit. -/
def digitVal (c : Char) : ℕ := c.toNat - 48

/-- Decimal value of a digit sequence. -/
def digitsToNat (cs : List Char) : ℕ :=
  cs.foldl (fun a c => a * 10 + digitVal c) 0

/-- All characters are ASCII digits. -/
def allDigits (cs : List Char) : Bool := cs.all (fun c => c.isDigit)

/-- Split a character list at the first occurrence of `target`, when present. -/
def splitAtChar (target : Char) : List Char → Option (List Char × List Char)
  | [] => none
  | c :: rest =>
      if c = target then some ([], rest)
      else match splitAtChar target rest with
        | some (a, b) => some (c :: a, b)
        | none => none

/-- Parse the mantissa part of a Python float literal: `digits`,
`digits.digits`, `digits.` or `.digits`. -/
def parseMant (cs : List Char) : Option ℚ :=
  match splitAtChar '.' cs with
  | none => if cs.isEmpty || !allDigits cs then none else some (digitsToNat cs)
  | some (ip, fp) =>
      if ip.isEmpty && fp.isEmpty then none
      else if !allDigits ip || !allDigits fp then none
      else some ((digitsToNat ip : ℚ) + (digitsToNat fp : ℚ) / ((10 : ℚ) ^ fp.length))

/-- Parse the exponent part of a Python float literal: optional sign then digits. -/
def parseExp (cs : List Char) : Option ℤ :=
  match cs with
  | '-' :: rest => if rest.isEmpty || !allDigits rest then none
      else some (-(digitsToNat rest : ℤ))
  | '+' :: rest => if rest.isEmpty || !allDigits rest then none
      else some ((digitsToNat rest : ℤ))
  | _ => if cs.isEmpty || !allDigits cs then none else some ((digitsToNat cs : ℤ))

/-- `10 ^ e` for an integer exponent, as a rational. -/
def qpow10 (e : ℤ) : ℚ :=
  if 0 ≤ e then (10 : ℚ) ^ e.toNat else 1 / (10 : ℚ) ^ (-e).toNat

/-- Python `float(s)` on a string: strip whitespace, optional sign, decimal
mantissa with optional `e`/`E` exponent.  (`inf`/`nan`/digit underscores
are not representable in the rational model and are rejected.) -/
def parsePyFloat (s : String) : Option ℚ :=
  let cs0 := ((pyStrip s).toList).map (fun c => if c = 'E' then 'e' else c)
  match cs0 with
  | '-' :: cs =>
      (match splitAtChar 'e' cs with
       | none => (parseMant cs).map (fun m => -m)
       | some (mant, ex) =>
          match parseMant mant, parseExp ex with
          | some m, some e => some (-(m * qpow10 e))
          | _, _ => none)
  | '+' :: cs =>
      (match splitAtChar 'e' cs with
       | none => parseMant cs
       | some (mant, ex) =>
          match parseMant mant, parseExp ex with
          | some m, some e => some (m * qpow10 e)
          | _, _ => none)
  | cs =>
      (match splitAtChar 'e' cs with
       | none => parseMant cs
       | some (mant, ex) =>
          match parseMant mant, parseExp ex with
          | some m, some e => some (m * qpow10 e)
          | _, _ => none)

/-- Left-pad a string with `'0'` to length `k`. -/
def padZeros (s : String) (k : ℕ) : String :=
  String.mk (List.replicate (k - s.length) '0') ++ s

/-- Drop trailing `'0'` characters. -/
def dropTrailingZeros (s : String) : String :=
  String.mk ((s.toList.reverse.dropWhile (fun c => c = '0')).reverse)

/-- Python `str()` of a float: exact decimal rendering when the denominator
divides a power of ten (the case for every value `float()` of a decimal
literal produces in this rational model), fraction rendering otherwise. -/
def floatRepr (q : ℚ) : String :=
  let sgnStr := if q < 0 then "-" else ""
  let n := q.num.natAbs
  let d := q.den
  match (List.range 31).find? (fun k => (10 ^ k) % d = 0) with
  | some k =>
      let scaled := n * ((10 ^ k) / d)
      let ip := scaled / 10 ^ k
      let fracTrim := dropTrailingZeros (padZeros (toString (scaled % 10 ^ k)) k)
      let frac := if fracTrim.isEmpty then "0" else fracTrim
      sgnStr ++ toString ip ++ "." ++ frac
  | none => sgnStr ++ toString n ++ "/" ++ toString d

mutual

/-- Python `repr` of a value (string escaping inside quotes elided). -/
def pyRepr : PyVal → String
  | .vnone => "None"
  | .vbool b => if b then "True" else "False"
  | .vint n => toString n
  | .vfloat q => floatRepr q
  | .vstr s => "'" ++ s ++ "'"
  | .vlist l => "[" ++ pyReprList l ++ "]"
  | .vdict l => "\x7b" ++ pyReprDict l ++ "\x7d"

/-- Comma-joined reprs of list elements. -/
def pyReprList : List PyVal → String
  | [] => ""
  | [x] => pyRepr x
  | x :: y :: rest => pyRepr x ++ ", " ++ pyReprList (y :: rest)

/-- Comma-joined reprs of dict entries. -/
def pyReprDict : List (String × PyVal) → String
  | [] => ""
  | [(k, v)] => "'" ++ k ++ "': " ++ pyRepr v
  | (k, v) :: e :: rest => "'" ++ k ++ "': " ++ pyRepr v ++ ", " ++ pyReprDict (e :: rest)

end

/-- Python `str()` of a value. -/
def pyStr : PyVal → String
  | .vnone => "None"
  | .vbool b => if b then "True" else "False"
  | .vint n => toString n
  | .vfloat q => floatRepr q
  | .vstr s => s
  | .vlist l => pyRepr (.vlist l)
  | .vdict l => pyRepr (.vdict l)

/-- Python `float(x)`: numbers and booleans convert, strings are parsed,
everything else raises `TypeError`. -/
def pyFloatE : PyVal → Except Unit ℚ
  | .vint n => .ok n
  | .vfloat q => .ok q
  | .vbool b => .ok (if b then 1 else 0)
  | .vstr s =>
      match parsePyFloat s with
      | some q => .ok q
      | none => .error ()
  | _ => .error ()

/-- Is the value a Python dict? -/
def PyVal.isDict : PyVal → Bool
  | .vdict _ => true
  | _ => false

/-- The entries of a dict value (`[]` for non-dicts; used only at spec level
or under a dict hypothesis). -/
def entriesOf : PyVal → List (String × PyVal)
  | .vdict l => l
  | _ => []

/-- The client-facing shape produced by `normalize_product` (field order as
in the returned Python dict). -/
structure NormProd where
  p_id : String
  name : PyVal
  brand : PyVal
  rating : PyVal
  prices : ℚ
  discounted_price : ℚ
  img_link : PyVal
  p_link : PyVal

/-- `normalize_product(p)` from `src/app.py` lines 104–122, on the entries
of the record dict: price fields coerced with `float()` and a `try/except`
fallback (0.0 for the list price, the resolved list price for the
discounted price), the remaining fields passed through with defaults. -/
def normalize_product (p : List (String × PyVal)) : NormProd :=
  let price : ℚ :=
    match pyFloatE (dGetD p "actual_price" (.vint 0)) with
    | .ok v => v
    | .error _ => 0
  let disc : ℚ :=
    match pyFloatE (dGetD p "discounted_price" (.vfloat price)) with
    | .ok v => v
    | .error _ => price
  ⟨pyStr (dGetD p "product_id_numeric" .vnone),
   dGetD p "product_name" (.vstr "Unknown"),
   dGetD p "Brand" (.vstr "Generic"),
   dGetD p "rating" (.vint 0),
   price,
   disc,
   dGetD p "img_link" (.vstr ""),
   dGetD p "product_link" (.vstr "#")⟩

/-- The process-wide state written by `load_data` and read by the search
endpoints: `PRODUCTS_MAP`, `PRODUCT_NAMES_MAP`, `RECOMMENDATIONS`. -/
structure St where
  products : List (String × PyVal)
  names : List (String × String)
  recs : PyVal

/-- The per-item loop of `load_data` (`src/app.py` lines 84–90), folded over
the normalized `data_list`.  A bare string item is skipped; a non-dict item
makes `item.get` raise `AttributeError`, and a dict item whose
`product_name` value is a non-string makes `.strip()` raise; either
exception is caught by the surrounding `try/except`, which stops the loop
but keeps the partially populated maps. -/
def load_items : List PyVal → List (String × PyVal) → List (String × String) →
    List (String × PyVal) × List (String × String)
  | [], prods, names => (prods, names)
  | item :: rest, prods, names =>
      match item with
      | .vstr _ => load_items rest prods names
      | .vdict l =>
          let pid := pyStr (dGetD l "product_id_numeric" (dGetD l "product_id" (.vstr "N/A")))
          if pid ≠ "None" then
            let prods1 := dinsert prods pid (.vdict l)
            match dGetD l "product_name" (.vstr "") with
            | .vstr s => load_items rest prods1 (dinsert names (pyStrip s) pid)
            | _ => (prods1, names)
          else load_items rest prods names
      | _ => (prods, names)

/-- `load_data` (`src/app.py` lines 60–101) on the parsed file contents:
`matrixRaw` is the parsed product-matrix JSON (`none` when no candidate
file exists or parsing fails — both leave the maps empty), `recRaw` the
parsed recommendation JSON (`none` when absent or unparseable, leaving
`RECOMMENDATIONS` as the empty dict).  A top-level list is used as is, a
top-level dict contributes its values, anything else yields no items. -/
def load_core (matrixRaw : Option PyVal) (recRaw : Option PyVal) : St :=
  let pn :=
    match matrixRaw with
    | none => ([], [])
    | some raw =>
        let data_list :=
          match raw with
          | .vlist l => l
          | .vdict l => l.map Prod.snd
          | _ => []
        load_items data_list [] []
  ⟨pn.1, pn.2, (recRaw.getD (.vdict []))⟩

/-- Normalization applied before any matching: `(q or "").lower().strip()`. -/
def queryOf (q : Option String) : String :=
  pyStrip (pyLower (q.getD ""))

/-- Map a fallible function over a list, stopping at the first raised
exception (Python list comprehension / loop semantics). -/
def emap {α β : Type} (f : α → Except Unit β) : List α → Except Unit (List β)
  | [] => .ok []
  | x :: rest =>
      match f x with
      | .error e => .error e
      | .ok y =>
          match emap f rest with
          | .error e => .error e
          | .ok ys => .ok (y :: ys)

/-- Filter a list by a fallible predicate, stopping at the first raised
exception (Python list comprehension semantics). -/
def efilter {α : Type} (f : α → Except Unit Bool) : List α → Except Unit (List α)
  | [] => .ok []
  | x :: rest =>
      match f x with
      | .error e => .error e
      | .ok b =>
          match efilter f rest with
          | .error e => .error e
          | .ok ys => .ok (if b then x :: ys else ys)

/-- `normalize_product(p)` as called on a stored value: raises
`AttributeError` when the value is not a dict (its unguarded `.get` calls),
total otherwise. -/
def normEx : PyVal → Except Unit NormProd
  | .vdict l => .ok (normalize_product l)
  | _ => .error ()

/-- The stage-1 test `query == str(p.get("Brand")).lower()` (line 226):
`p.get` raises when the record is not a dict; a missing brand reads as
Python's `None`, which `str()` renders as `"None"`. -/
def brandCheck (query : String) (p : PyVal) : Except Unit Bool :=
  match p with
  | .vdict l => .ok (query == pyLower (pyStr (dGetD l "Brand" .vnone)))
  | _ => .error ()

/-- The name test `query in p.get("product_name", "").lower()` (lines 233
and 250): raises when the record is not a dict or when a present
`product_name` value is not a string (`.lower()` on a non-string). -/
def nameCheckE (query : String) (p : PyVal) : Except Unit Bool :=
  match p with
  | .vdict l =>
      match dGetD l "product_name" (.vstr "") with
      | .vstr s => .ok (pyInStr query (pyLower s))
      | _ => .error ()
  | _ => .error ()

/-- The stage-3 brand test `query in str(p.get("Brand")).lower()` (line 252). -/
def brandSubE (query : String) (p : PyVal) : Except Unit Bool :=
  match p with
  | .vdict l => .ok (pyInStr query (pyLower (pyStr (dGetD l "Brand" .vnone))))
  | _ => .error ()

/-- Stage 1 (line 226): the brand-equality filter over the catalog in
iteration order. -/
def stage1 (query : String) (prods : List (String × PyVal)) :
    Except Unit (List (String × PyVal)) :=
  efilter (fun x => brandCheck query x.2) prods

/-- The anchor scan of stage 2 (lines 231–235): first catalog id whose
record name contains the query. -/
def findAnchor (query : String) : List (String × PyVal) → Except Unit (Option String)
  | [] => .ok none
  | x :: rest =>
      match nameCheckE query x.2 with
      | .error e => .error e
      | .ok true => .ok (some x.1)
      | .ok false => findAnchor query rest

/-- `matched_id in RECOMMENDATIONS` (line 237): key membership on a dict,
element equality on a list, substring on a string, `TypeError` otherwise. -/
def pyContains (container : PyVal) (pid : String) : Except Unit Bool :=
  match container with
  | .vdict t => .ok (alookup t pid).isSome
  | .vlist l => .ok (l.any (fun v => match v with | .vstr t => pid == t | _ => false))
  | .vstr s => .ok (pyInStr pid s)
  | _ => .error ()

/-- `RECOMMENDATIONS[matched_id]` (line 238): dict indexing; `KeyError` on a
missing key, `TypeError` on any non-dict (string keys never index lists or
strings). -/
def pyIndex (container : PyVal) (pid : String) : Except Unit PyVal :=
  match container with
  | .vdict t =>
      match alookup t pid with
      | some v => .ok v
      | none => .error ()
  | _ => .error ()

/-- `for rec in rec_list` (line 239): iterating a list yields its elements,
a string its characters, a dict its keys; `TypeError` otherwise. -/
def pyIter : PyVal → Except Unit (List PyVal)
  | .vlist l => .ok l
  | .vstr s => .ok (s.toList.map (fun c => .vstr (String.mk [c])))
  | .vdict l => .ok (l.map (fun kv => PyVal.vstr kv.1))
  | _ => .error ()

/-- `rec.get("product_name")` followed by its use as a dict-membership key
(lines 240–241): raises when the stub is not a dict or when the name value
is unhashable (a list or dict); `some s` when it is the string `s`, `none`
for any other hashable value (which can never equal a string key). -/
def stubName (rec : PyVal) : Except Unit (Option String) :=
  match rec with
  | .vdict l =>
      match dGetD l "product_name" .vnone with
      | .vstr s => .ok (some s)
      | .vlist _ => .error ()
      | .vdict _ => .error ()
      | _ => .ok none
  | _ => .error ()

/-- The stub-resolution loop of stage 2 (lines 239–242): for each stub,
look the name up in `PRODUCT_NAMES_MAP` and, when bound, append
`PRODUCTS_MAP[PRODUCT_NAMES_MAP[name]]` (a `KeyError` when the indexed id
is not a catalog key). -/
def resolveStubs (st : St) : List PyVal → Except Unit (List PyVal)
  | [] => .ok []
  | rec :: rest =>
      match stubName rec with
      | .error e => .error e
      | .ok none => resolveStubs st rest
      | .ok (some s) =>
          match alookup st.names s with
          | none => resolveStubs st rest
          | some pid =>
              match alookup st.products pid with
              | none => .error ()
              | some p =>
                  match resolveStubs st rest with
                  | .error e => .error e
                  | .ok tail => .ok (p :: tail)

/-- Stage 2 (lines 231–244): the anchor scan, the truthiness-guarded
recommendation lookup (`if matched_id and matched_id in RECOMMENDATIONS`),
and the stub resolution; the returned list is Python's `results`. -/
def stage2 (query : String) (st : St) : Except Unit (List PyVal) :=
  match findAnchor query st.products with
  | .error e => .error e
  | .ok none => .ok []
  | .ok (some pid) =>
      if pid = "" then .ok []
      else
        match pyContains st.recs pid with
        | .error e => .error e
        | .ok false => .ok []
        | .ok true =>
            match pyIndex st.recs pid with
            | .error e => .error e
            | .ok rl =>
                match pyIter rl with
                | .error e => .error e
                | .ok stubs => resolveStubs st stubs

/-- The scoring loop of stage 3 (lines 247–255): +10 for a name substring
hit, +5 for a brand substring hit, keeping only positive scores, in catalog
iteration order. -/
def escore (query : String) : List (String × PyVal) → Except Unit (List (ℕ × PyVal))
  | [] => .ok []
  | x :: rest =>
      match nameCheckE query x.2 with
      | .error e => .error e
      | .ok nb =>
          match brandSubE query x.2 with
          | .error e => .error e
          | .ok bb =>
              let s := (if nb then 10 else 0) + (if bb then 5 else 0)
              match escore query rest with
              | .error e => .error e
              | .ok tail => .ok (if s > 0 then (s, x.2) :: tail else tail)

/-- Insertion step of the stable descending sort: an element is placed
before the first strictly smaller score and after all earlier-inserted
elements of equal score. -/
def insertDesc (x : ℕ × PyVal) : List (ℕ × PyVal) → List (ℕ × PyVal)
  | [] => [x]
  | y :: rest => if x.1 < y.1 then y :: insertDesc x rest else x :: y :: rest

/-- `scored.sort(key=lambda x: x[0], reverse=True)` (line 256): Python's
sort is stable, so it is extensionally a stable descending insertion sort
(earlier elements stay before later elements of equal score). -/
def sortScoredDesc : List (ℕ × PyVal) → List (ℕ × PyVal)
  | [] => []
  | x :: rest => insertDesc x (sortScoredDesc rest)

/-- Stage 3 (lines 247–256): score then stable-sort descending. -/
def stage3 (query : String) (prods : List (String × PyVal)) :
    Except Unit (List (ℕ × PyVal)) :=
  match escore query prods with
  | .error e => .error e
  | .ok scored => .ok (sortScoredDesc scored)

/-- The value `search_products` returns when it reaches stage 3 (lines
247–257): the first 20 of the sorted scored records, normalized. -/
def fallbackRender (query : String) (prods : List (String × PyVal)) :
    Except Unit (List NormProd) :=
  match stage3 query prods with
  | .error e => .error e
  | .ok sorted => emap (fun x => normEx x.2) (sorted.take 20)

/-- `search_products(q)` (`src/app.py` lines 217–257): normalize the query,
return `[]` for a falsy query, then run the three short-circuiting stages. -/
def search_products (q : Option String) (st : St) : Except Unit (List NormProd) :=
  if queryOf q = "" then .ok []
  else
    match stage1 (queryOf q) st.products with
    | .error e => .error e
    | .ok bm =>
        if bm.isEmpty then
          match stage2 (queryOf q) st with
          | .error e => .error e
          | .ok results =>
              if results.isEmpty then fallbackRender (queryOf q) st.products
              else emap normEx (results.take 20)
        else emap normEx ((bm.take 20).map (fun x => x.2))

/-- `get_top_products()` (`src/app.py` lines 209–214): the first 20 catalog
values, normalized; `[]` for an empty catalog. -/
def get_top_products (st : St) : Except Unit (List NormProd) :=
  if st.products.isEmpty then .ok []
  else emap normEx ((st.products.map (fun x => x.2)).take 20)

/-! ### Spec-level characterizations

Total functions phrased the way the spec describes the stages; the lemmas
below show the embedded (fallible) code agrees with them on well-formed
states. -/

/-- The lowercased name a record contributes to the name tests: its
`product_name` string (default `""`), lowercased. -/
def nameLowerOf (p : PyVal) : String :=
  match dGetD (entriesOf p) "product_name" (.vstr "") with
  | .vstr s => pyLower s
  | _ => ""

/-- The lowercased brand a record contributes to the brand tests:
`str()` of its `Brand` value (Python `None` when absent), lowercased. -/
def brandLowerOf (p : PyVal) : String :=
  pyLower (pyStr (dGetD (entriesOf p) "Brand" .vnone))

/-- The stage-3 score of a record: +10 name substring hit, +5 brand
substring hit. -/
def scoreSpecOf (query : String) (p : PyVal) : ℕ :=
  (if pyInStr query (nameLowerOf p) then 10 else 0) +
  (if pyInStr query (brandLowerOf p) then 5 else 0)

/-- The positively scored records of stage 3, in catalog order. -/
def scoredSpec (query : String) (prods : List (String × PyVal)) : List (ℕ × PyVal) :=
  prods.filterMap (fun x =>
    if scoreSpecOf query x.2 > 0 then some (scoreSpecOf query x.2, x.2) else none)

/-- The stage-2 anchor: id of the first catalog record whose name contains
the query. -/
def anchorSpec (query : String) (prods : List (String × PyVal)) : Option String :=
  (prods.find? (fun x => pyInStr query (nameLowerOf x.2))).map (fun x => x.1)

/-- The recommendation table's entries (the table is a dict on well-formed
states). -/
def recTable (st : St) : List (String × PyVal) := entriesOf st.recs

/-- The name a recommendation stub offers for resolution, when it is a string. -/
def stubNameSpec (r : PyVal) : Option String :=
  match dGetD (entriesOf r) "product_name" .vnone with
  | .vstr s => some s
  | _ => none

/-- Resolution of one stub: its name through `PRODUCT_NAMES_MAP`, the
resulting id through `PRODUCTS_MAP`. -/
def resolveSpec (st : St) (r : PyVal) : Option PyVal :=
  (stubNameSpec r).bind (fun s => (alookup st.names s).bind (fun pid => alookup st.products pid))

/-- Stage 2's resolved record list: resolvable stubs in recommendation
order, unresolvable ones skipped. -/
def resolvedSpec (st : St) (stubs : List PyVal) : List PyVal :=
  stubs.filterMap (resolveSpec st)

/-- The `results` list stage 2 hands back, as the spec describes it,
including the code's truthiness guard on the anchor. -/
def stage2Spec (query : String) (st : St) : List PyVal :=
  match anchorSpec query st.products with
  | none => []
  | some pid =>
      if pid = "" then []
      else
        match alookup (recTable st) pid with
        | some (.vlist stubs) => resolvedSpec st stubs
        | some _ => []
        | none => []

/-- A well-formed stored record: a dict whose `product_name` value, when
present, is a string (what `load_data` produces when it completes without
an exception, and what keeps the search stages exception-free). -/
def wfRecord (p : PyVal) : Bool :=
  match p with
  | .vdict l =>
      match alookup l "product_name" with
      | some (.vstr _) => true
      | some _ => false
      | none => true
  | _ => false

/-- A well-formed recommendation stub: a dict whose `product_name` value,
when present, is hashable (not a list or dict). -/
def wfStub (r : PyVal) : Bool :=
  match r with
  | .vdict l =>
      match alookup l "product_name" with
      | some (.vlist _) => false
      | some (.vdict _) => false
      | _ => true
  | _ => false

/-- A well-formed recommendation table: a dict from ids to lists of
well-formed stubs. -/
def wfRecs (v : PyVal) : Bool :=
  match v with
  | .vdict t => t.all (fun kv => match kv.2 with | .vlist rl => rl.all wfStub | _ => false)
  | _ => false

/-- A well-formed state: well-formed records, every name-index value a
catalog key, and a well-formed recommendation table. -/
def wfSt (st : St) : Bool :=
  st.products.all (fun x => wfRecord x.2) &&
  (st.names.all (fun nv => (alookup st.products nv.2).isSome) &&
   wfRecs st.recs)

/-! ### Concrete inputs used by witnesses and counterexamples -/

/-- A catalog record: the first shoe of the spec's worked example. -/
def recA : List (String × PyVal) :=
  [("product_id_numeric", .vint 1), ("product_name", .vstr "Red Shoe"),
   ("Brand", .vstr "Acme"), ("actual_price", .vstr "10")]

/-- A catalog record: the second shoe of the spec's worked example. -/
def recB : List (String × PyVal) :=
  [("product_id_numeric", .vint 2), ("product_name", .vstr "Blue Shoe"),
   ("Brand", .vstr "Acme"), ("actual_price", .vstr "20")]

/-- The spec's worked-example state: two Acme shoes, no recommendations. -/
def stShoes : St :=
  ⟨[("1", .vdict recA), ("2", .vdict recB)],
   [("Red Shoe", "1"), ("Blue Shoe", "2")], .vdict []⟩

/-- A recommendation stub naming the record `"blue hat"`. -/
def stubW : PyVal := .vdict [("product_name", .vstr "blue hat")]

/-- A record named `"red shoe"`. -/
def recR1 : List (String × PyVal) :=
  [("product_id_numeric", .vint 1), ("product_name", .vstr "red shoe")]

/-- A record named `"blue hat"`. -/
def recR2 : List (String × PyVal) :=
  [("product_id_numeric", .vint 2), ("product_name", .vstr "blue hat")]

/-- A state whose stage 2 succeeds: searching `"red"` anchors at id `"1"`,
whose recommendation list resolves to the `"blue hat"` record. -/
def stRecW : St :=
  ⟨[("1", .vdict recR1), ("2", .vdict recR2)],
   [("blue hat", "2")], .vdict [("1", .vlist [stubW])]⟩

/-- Record with an empty-string id and a name matching query `"x"`. -/
def dAe : List (String × PyVal) :=
  [("product_id_numeric", .vint 1), ("product_name", .vstr "x")]

/-- Record the recommendation table points at through name `"y"`. -/
def dBe : List (String × PyVal) :=
  [("product_id_numeric", .vint 2), ("product_name", .vstr "zzz")]

/-- A recommendation stub naming `"y"`. -/
def stubY : PyVal := .vdict [("product_name", .vstr "y")]

/-- A state whose stage-2 anchor is the falsy id `""`, which is a key of
the recommendation table with a resolvable stub. -/
def stC2 : St :=
  ⟨[("", .vdict dAe), ("2", .vdict dBe)], [("y", "2")], .vdict [("", .vlist [stubY])]⟩

/-- A record with no `Brand` field. -/
def recNoB : List (String × PyVal) := [("product_name", .vstr "thing")]

/-- A one-record catalog whose record has no brand. -/
def stC5 : St := ⟨[("1", .vdict recNoB)], [], .vdict []⟩

/-- A product-matrix file whose single record has a valid id but a
non-string `product_name`: `load_data` stores the record, then the
`.strip()` on its name raises, caught by the loader's `try/except`. -/
def rawBad : PyVal :=
  .vlist [.vdict [("product_id_numeric", .vint 1), ("product_name", .vint 42)]]

/-- A product-matrix file with one well-formed record named `"A"`. -/
def rawW10 : PyVal :=
  .vlist [.vdict [("product_id_numeric", .vint 1), ("product_name", .vstr "A")]]

/-! ### Basic lemmas -/

theorem alookup_mem {α : Type} {l : List (String × α)} {k : String} {v : α}
    (h : alookup l k = some v) : (k, v) ∈ l := by
  induction l with
  | nil => simp [alookup] at h
  | cons x rest ih =>
      obtain ⟨k', v'⟩ := x
      by_cases hk : k' = k
      · subst hk
        simp [alookup] at h
        simp [h]
      · simp [alookup, hk] at h
        exact List.mem_cons_of_mem _ (ih h)

theorem alookup_dinsert_self {α : Type} (l : List (String × α)) (k : String) (v : α) :
    alookup (dinsert l k v) k = some v := by
  induction l with
  | nil => simp [dinsert, alookup]
  | cons x rest ih =>
      obtain ⟨k', v'⟩ := x
      by_cases hk : k' = k
      · simp [dinsert, hk, alookup]
      · simp [dinsert, hk, alookup, ih]

theorem alookup_dinsert_ne {α : Type} (l : List (String × α)) (k' k : String) (v : α)
    (h : k' ≠ k) : alookup (dinsert l k' v) k = alookup l k := by
  induction l with
  | nil => simp [dinsert, alookup, h]
  | cons x rest ih =>
      obtain ⟨k'', v''⟩ := x
      by_cases hk : k'' = k'
      · simp [dinsert, hk, alookup, h]
      · simp only [dinsert, hk, if_false]
        by_cases hk2 : k'' = k
        · simp [alookup, hk2]
        · simp [alookup, hk2, ih]

theorem alookup_dinsert_isSome_mono {α : Type} {l : List (String × α)} {k : String}
    (k' : String) (v : α) (h : (alookup l k).isSome = true) :
    (alookup (dinsert l k' v) k).isSome = true := by
  by_cases hk : k' = k
  · subst hk; simp [alookup_dinsert_self]
  · rw [alookup_dinsert_ne _ _ _ _ hk]; exact h

theorem emap_ok {α β : Type} {f : α → Except Unit β} {g : α → β} {l : List α}
    (h : ∀ x ∈ l, f x = .ok (g x)) : emap f l = .ok (l.map g) := by
  induction l with
  | nil => rfl
  | cons x rest ih =>
      have hx := h x (List.mem_cons_self x rest)
      have hr := ih (fun y hy => h y (List.mem_cons_of_mem _ hy))
      simp [emap, hx, hr]

theorem emap_ok_length {α β : Type} {f : α → Except Unit β} {l : List α}
    {ys : List β} (h : emap f l = .ok ys) : ys.length = l.length := by
  induction l generalizing ys with
  | nil => simp [emap] at h; simp [← h]
  | cons x rest ih =>
      simp only [emap] at h
      cases hx : f x with
      | error e => rw [hx] at h; cases h
      | ok y =>
          rw [hx] at h
          cases hr : emap f rest with
          | error e => rw [hr] at h; cases h
          | ok zs =>
              rw [hr] at h
              cases h
              simp [ih hr]

theorem efilter_ok {α : Type} {f : α → Except Unit Bool} {p : α → Bool} {l : List α}
    (h : ∀ x ∈ l, f x = .ok (p x)) : efilter f l = .ok (l.filter p) := by
  induction l with
  | nil => rfl
  | cons x rest ih =>
      have hx := h x (List.mem_cons_self x rest)
      have hr := ih (fun y hy => h y (List.mem_cons_of_mem _ hy))
      cases hp : p x <;> simp [efilter, hx, hr, hp, List.filter_cons]

theorem wfRecord_isDict {p : PyVal} (h : wfRecord p = true) : p.isDict = true := by
  cases p <;> simp [wfRecord, PyVal.isDict] at h ⊢

theorem normEx_entries {p : PyVal} (h : p.isDict = true) :
    normEx p = .ok (normalize_product (entriesOf p)) := by
  cases p <;> first | rfl | simp [PyVal.isDict] at h

theorem wfRecord_spec {p : PyVal} (h : wfRecord p = true) :
    ∃ l, p = .vdict l ∧
      (alookup l "product_name" = none ∨ ∃ s, alookup l "product_name" = some (.vstr s)) := by
  cases p with
  | vdict l =>
      refine ⟨l, rfl, ?_⟩
      cases hl : alookup l "product_name" with
      | none => exact Or.inl rfl
      | some v =>
          cases v with
          | vstr s => exact Or.inr ⟨s, rfl⟩
          | vnone => simp [wfRecord, hl] at h
          | vbool b => simp [wfRecord, hl] at h
          | vint n => simp [wfRecord, hl] at h
          | vfloat q => simp [wfRecord, hl] at h
          | vlist xs => simp [wfRecord, hl] at h
          | vdict xs => simp [wfRecord, hl] at h
  | vnone => simp [wfRecord] at h
  | vbool b => simp [wfRecord] at h
  | vint n => simp [wfRecord] at h
  | vfloat q => simp [wfRecord] at h
  | vstr s => simp [wfRecord] at h
  | vlist l => simp [wfRecord] at h

theorem brandCheck_isDict {query : String} {p : PyVal} (h : p.isDict = true) :
    brandCheck query p = .ok (query == brandLowerOf p) := by
  cases p <;> first | rfl | simp [PyVal.isDict] at h

theorem brandSubE_isDict {query : String} {p : PyVal} (h : p.isDict = true) :
    brandSubE query p = .ok (pyInStr query (brandLowerOf p)) := by
  cases p <;> first | rfl | simp [PyVal.isDict] at h

theorem nameCheckE_wf {query : String} {p : PyVal} (h : wfRecord p = true) :
    nameCheckE query p = .ok (pyInStr query (nameLowerOf p)) := by
  obtain ⟨l, rfl, hc⟩ := wfRecord_spec h
  rcases hc with hnone | ⟨s, hs⟩
  · simp [nameCheckE, nameLowerOf, entriesOf, dGetD, hnone]
  · simp [nameCheckE, nameLowerOf, entriesOf, dGetD, hs]

theorem stage1_wf {query : String} {prods : List (String × PyVal)}
    (h : ∀ x ∈ prods, x.2.isDict = true) :
    stage1 query prods = .ok (prods.filter (fun x => query == brandLowerOf x.2)) := by
  unfold stage1
  exact efilter_ok (fun x hx => brandCheck_isDict (h x hx))

theorem findAnchor_wf {query : String} {prods : List (String × PyVal)}
    (h : ∀ x ∈ prods, wfRecord x.2 = true) :
    findAnchor query prods = .ok (anchorSpec query prods) := by
  induction prods with
  | nil => rfl
  | cons x rest ih =>
      have hx : nameCheckE query x.2 = .ok (pyInStr query (nameLowerOf x.2)) :=
        nameCheckE_wf (h x (List.mem_cons_self x rest))
      have hrest := ih (fun y hy => h y (List.mem_cons_of_mem _ hy))
      cases hn : pyInStr query (nameLowerOf x.2) with
      | true =>
          rw [hn] at hx
          simp [findAnchor, hx, anchorSpec, List.find?_cons_of_pos, hn]
      | false =>
          rw [hn] at hx
          simp only [findAnchor, hx, hrest]
          simp [anchorSpec, List.find?_cons_of_neg, hn]

theorem scoreSpecOf_cases (query : String) (p : PyVal) :
    scoreSpecOf query p = 0 ∨ scoreSpecOf query p = 5 ∨
      scoreSpecOf query p = 10 ∨ scoreSpecOf query p = 15 := by
  unfold scoreSpecOf
  by_cases h1 : pyInStr query (nameLowerOf p) <;>
    by_cases h2 : pyInStr query (brandLowerOf p) <;> simp [h1, h2]

theorem escore_wf {query : String} {prods : List (String × PyVal)}
    (h : ∀ x ∈ prods, wfRecord x.2 = true) :
    escore query prods = .ok (scoredSpec query prods) := by
  induction prods with
  | nil => rfl
  | cons x rest ih =>
      have hx : nameCheckE query x.2 = .ok (pyInStr query (nameLowerOf x.2)) :=
        nameCheckE_wf (h x (List.mem_cons_self x rest))
      have hb : brandSubE query x.2 = .ok (pyInStr query (brandLowerOf x.2)) :=
        brandSubE_isDict (wfRecord_isDict (h x (List.mem_cons_self x rest)))
      have hrest := ih (fun y hy => h y (List.mem_cons_of_mem _ hy))
      simp only [escore, hx, hb, hrest, scoredSpec, List.filterMap_cons, scoreSpecOf]
      by_cases hs : (if pyInStr query (nameLowerOf x.2) then 10 else 0) +
          (if pyInStr query (brandLowerOf x.2) then 5 else 0) > 0
      · simp [hs, scoredSpec]
      · simp [hs, scoredSpec]

theorem stubName_wf {r : PyVal} (h : wfStub r = true) :
    stubName r = .ok (stubNameSpec r) := by
  cases r with
  | vdict l =>
      simp only [stubName, stubNameSpec, entriesOf, dGetD]
      cases hl : alookup l "product_name" with
      | none => rfl
      | some v =>
          cases v with
          | vstr s => rfl
          | vnone => rfl
          | vbool b => rfl
          | vint n => rfl
          | vfloat q => rfl
          | vlist xs => simp [wfStub, hl] at h
          | vdict xs => simp [wfStub, hl] at h
  | vnone => simp [wfStub] at h
  | vbool b => simp [wfStub] at h
  | vint n => simp [wfStub] at h
  | vfloat q => simp [wfStub] at h
  | vstr s => simp [wfStub] at h
  | vlist l => simp [wfStub] at h

theorem resolveStubs_wf {st : St} {stubs : List PyVal}
    (hs : ∀ r ∈ stubs, wfStub r = true)
    (hn : ∀ n pid, alookup st.names n = some pid → (alookup st.products pid).isSome = true) :
    resolveStubs st stubs = .ok (resolvedSpec st stubs) := by
  induction stubs with
  | nil => rfl
  | cons r rest ih =>
      have hr : stubName r = .ok (stubNameSpec r) := stubName_wf (hs r (List.mem_cons_self r rest))
      have hrest := ih (fun y hy => hs y (List.mem_cons_of_mem _ hy))
      simp only [resolveStubs, hr, resolvedSpec, List.filterMap_cons, resolveSpec]
      cases hname : stubNameSpec r with
      | none => simp [hrest, resolvedSpec, resolveSpec]
      | some s =>
          cases hl : alookup st.names s with
          | none => simp [hl, hrest, resolvedSpec, resolveSpec]
          | some pid =>
              obtain ⟨p, hp⟩ := Option.isSome_iff_exists.mp (hn s pid hl)
              simp [hl, hp, hrest, resolvedSpec, resolveSpec]

theorem insertDesc_mem {x y : ℕ × PyVal} {l : List (ℕ × PyVal)} :
    y ∈ insertDesc x l ↔ y = x ∨ y ∈ l := by
  induction l with
  | nil => simp [insertDesc]
  | cons z rest ih =>
      by_cases hc : x.1 < z.1
      · simp only [insertDesc, if_pos hc, List.mem_cons, ih]
        try tauto
      · simp only [insertDesc, if_neg hc, List.mem_cons]
        try tauto

theorem sortScoredDesc_mem {y : ℕ × PyVal} {l : List (ℕ × PyVal)}
    (h : y ∈ sortScoredDesc l) : y ∈ l := by
  induction l with
  | nil => simp [sortScoredDesc] at h
  | cons x rest ih =>
      simp only [sortScoredDesc] at h
      rcases insertDesc_mem.mp h with h1 | h2
      · simp [h1]
      · exact List.mem_cons_of_mem _ (ih h2)

theorem insertDesc_front {x : ℕ × PyVal} {l : List (ℕ × PyVal)}
    (h : ∀ y ∈ l, ¬ x.1 < y.1) : insertDesc x l = x :: l := by
  cases l with
  | nil => rfl
  | cons z rest => simp [insertDesc, h z (List.mem_cons_self z rest)]

theorem insertDesc_append {x : ℕ × PyVal} {a b : List (ℕ × PyVal)}
    (h : ∀ y ∈ a, x.1 < y.1) : insertDesc x (a ++ b) = a ++ insertDesc x b := by
  induction a with
  | nil => rfl
  | cons z rest ih =>
      have hz := h z (List.mem_cons_self z rest)
      have hrest := ih (fun y hy => h y (List.mem_cons_of_mem _ hy))
      simp [insertDesc, hz, hrest]

theorem sortScoredDesc_groups {l : List (ℕ × PyVal)}
    (h : ∀ y ∈ l, y.1 = 15 ∨ y.1 = 10 ∨ y.1 = 5) :
    sortScoredDesc l =
      l.filter (fun y => y.1 == 15) ++ l.filter (fun y => y.1 == 10) ++
        l.filter (fun y => y.1 == 5) := by
  induction l with
  | nil => rfl
  | cons x rest ih =>
      have hx := h x (List.mem_cons_self x rest)
      have hrest := ih (fun y hy => h y (List.mem_cons_of_mem _ hy))
      have hmem : ∀ g : ℕ, ∀ y ∈ rest.filter (fun y => y.1 == g), y.1 = g := by
        intro g y hy
        have := (List.mem_filter.mp hy).2
        simpa using this
      simp only [sortScoredDesc, hrest]
      rcases hx with h15 | h10 | h5
      · have hfront : ∀ y ∈ rest.filter (fun y => y.1 == 15) ++
            rest.filter (fun y => y.1 == 10) ++ rest.filter (fun y => y.1 == 5),
            ¬ x.1 < y.1 := by
          intro y hy
          rcases List.mem_append.mp hy with hy1 | hy5
          · rcases List.mem_append.mp hy1 with hy15 | hy10
            · have := hmem 15 y hy15; omega
            · have := hmem 10 y hy10; omega
          · have := hmem 5 y hy5; omega
        rw [insertDesc_front hfront]
        simp [List.filter_cons, h15]
      · have hsplit : rest.filter (fun y => y.1 == 15) ++ rest.filter (fun y => y.1 == 10) ++
            rest.filter (fun y => y.1 == 5) =
            rest.filter (fun y => y.1 == 15) ++ (rest.filter (fun y => y.1 == 10) ++
            rest.filter (fun y => y.1 == 5)) := by
          simp [List.append_assoc]
        rw [hsplit]
        have hpast : ∀ y ∈ rest.filter (fun y => y.1 == 15), x.1 < y.1 := by
          intro y hy; have := hmem 15 y hy; omega
        rw [insertDesc_append hpast]
        have hfront : ∀ y ∈ rest.filter (fun y => y.1 == 10) ++
            rest.filter (fun y => y.1 == 5), ¬ x.1 < y.1 := by
          intro y hy
          rcases List.mem_append.mp hy with hy10 | hy5
          · have := hmem 10 y hy10; omega
          · have := hmem 5 y hy5; omega
        rw [insertDesc_front hfront]
        simp [List.filter_cons, h10]
      · have hsplit : rest.filter (fun y => y.1 == 15) ++ rest.filter (fun y => y.1 == 10) ++
            rest.filter (fun y => y.1 == 5) =
            (rest.filter (fun y => y.1 == 15) ++ rest.filter (fun y => y.1 == 10)) ++
            rest.filter (fun y => y.1 == 5) := rfl
        rw [hsplit]
        have hpast : ∀ y ∈ rest.filter (fun y => y.1 == 15) ++
            rest.filter (fun y => y.1 == 10), x.1 < y.1 := by
          intro y hy
          rcases List.mem_append.mp hy with hy15 | hy10
          · have := hmem 15 y hy15; omega
          · have := hmem 10 y hy10; omega
        rw [insertDesc_append hpast]
        have hfront : ∀ y ∈ rest.filter (fun y => y.1 == 5), ¬ x.1 < y.1 := by
          intro y hy; have := hmem 5 y hy; omega
        rw [insertDesc_front hfront]
        simp [List.filter_cons, h5]

theorem scoredSpec_scores {query : String} {prods : List (String × PyVal)}
    {y : ℕ × PyVal} (h : y ∈ scoredSpec query prods) :
    y.1 = 15 ∨ y.1 = 10 ∨ y.1 = 5 := by
  obtain ⟨x, hx, hfx⟩ := List.mem_filterMap.mp h
  by_cases hs : scoreSpecOf query x.2 > 0
  · rw [if_pos hs] at hfx
    have hy1 : y.1 = scoreSpecOf query x.2 := by
      cases hfx; rfl
    rcases scoreSpecOf_cases query x.2 with h0 | h5 | h10 | h15 <;> omega
  · rw [if_neg hs] at hfx
    cases hfx

theorem scoredSpec_sndmem {query : String} {prods : List (String × PyVal)}
    {y : ℕ × PyVal} (h : y ∈ scoredSpec query prods) :
    ∃ x ∈ prods, y.2 = x.2 := by
  obtain ⟨x, hx, hfx⟩ := List.mem_filterMap.mp h
  by_cases hs : scoreSpecOf query x.2 > 0
  · rw [if_pos hs] at hfx
    cases hfx
    exact ⟨x, hx, rfl⟩
  · rw [if_neg hs] at hfx
    cases hfx

theorem fallbackRender_wf {query : String} {prods : List (String × PyVal)}
    (h : ∀ x ∈ prods, wfRecord x.2 = true) :
    fallbackRender query prods =
      .ok ((((scoredSpec query prods).filter (fun y => y.1 == 15) ++
             (scoredSpec query prods).filter (fun y => y.1 == 10) ++
             (scoredSpec query prods).filter (fun y => y.1 == 5)).take 20).map
           (fun y => normalize_product (entriesOf y.2))) := by
  unfold fallbackRender stage3
  rw [escore_wf h]
  show emap (fun x => normEx x.2) ((sortScoredDesc (scoredSpec query prods)).take 20) = _
  have hgroups : sortScoredDesc (scoredSpec query prods) =
      (scoredSpec query prods).filter (fun y => y.1 == 15) ++
      (scoredSpec query prods).filter (fun y => y.1 == 10) ++
      (scoredSpec query prods).filter (fun y => y.1 == 5) :=
    sortScoredDesc_groups (fun y hy => scoredSpec_scores hy)
  rw [hgroups]
  apply emap_ok
  intro y hy
  have hmem : y ∈ scoredSpec query prods := by
    have := List.take_subset 20 _ hy
    rcases List.mem_append.mp this with h1 | h5
    · rcases List.mem_append.mp h1 with h15 | h10
      · exact List.mem_of_mem_filter h15
      · exact List.mem_of_mem_filter h10
    · exact List.mem_of_mem_filter h5
  obtain ⟨x, hx, hyx⟩ := scoredSpec_sndmem hmem
  rw [hyx]
  exact normEx_entries (wfRecord_isDict (h x hx))

theorem stage2Spec_mem {query : String} {st : St} {p : PyVal}
    (h : p ∈ stage2Spec query st) : ∃ pid, (pid, p) ∈ st.products := by
  unfold stage2Spec at h
  cases hA : anchorSpec query st.products with
  | none => rw [hA] at h; simp at h
  | some a =>
      rw [hA] at h
      by_cases ha : a = ""
      · simp [ha] at h
      · cases hL : alookup (recTable st) a with
        | none => simp [ha, hL] at h
        | some v =>
            cases v with
            | vlist stubs =>
                simp only [ha, if_neg ha, hL] at h
                unfold resolvedSpec at h
                obtain ⟨r, _, hres⟩ := List.mem_filterMap.mp h
                unfold resolveSpec at hres
                cases hsn : stubNameSpec r with
                | none => rw [hsn] at hres; cases hres
                | some s =>
                    rw [hsn] at hres
                    simp only [Option.some_bind] at hres
                    cases hl1 : alookup st.names s with
                    | none => rw [hl1] at hres; simp at hres
                    | some pid =>
                        rw [hl1] at hres
                        simp only [Option.some_bind] at hres
                        exact ⟨pid, alookup_mem hres⟩
            | vnone => simp [ha, hL] at h
            | vbool b => simp [ha, hL] at h
            | vint n => simp [ha, hL] at h
            | vfloat q => simp [ha, hL] at h
            | vstr s => simp [ha, hL] at h
            | vdict t => simp [ha, hL] at h

theorem stage2_wf {query : String} {st : St} (hw : wfSt st = true) :
    stage2 query st = .ok (stage2Spec query st) := by
  obtain ⟨prods, names, recs⟩ := st
  simp only [wfSt, Bool.and_eq_true, List.all_eq_true] at hw
  obtain ⟨hp, hn, hr⟩ := hw
  cases recs with
  | vdict t =>
      simp only [wfRecs, List.all_eq_true] at hr
      unfold stage2 stage2Spec recTable entriesOf
      rw [findAnchor_wf hp]
      cases hA : anchorSpec query prods with
      | none => rfl
      | some pid =>
          by_cases hpid : pid = ""
          · simp [hpid]
          · simp only [if_neg hpid]
            cases hL : alookup t pid with
            | none => simp [pyContains, hL]
            | some v =>
                have hv := hr (pid, v) (alookup_mem hL)
                cases v with
                | vlist rl =>
                    simp only [List.all_eq_true] at hv
                    have hres : resolveStubs ⟨prods, names, .vdict t⟩ rl =
                        .ok (resolvedSpec ⟨prods, names, .vdict t⟩ rl) := by
                      apply resolveStubs_wf
                      · exact fun r hrm => hv r hrm
                      · intro n pid2 hlk
                        exact hn (n, pid2) (alookup_mem hlk)
                    simp [pyContains, hL, pyIndex, pyIter, hres]
                | vnone => simp at hv
                | vbool b => simp at hv
                | vint n => simp at hv
                | vfloat q => simp at hv
                | vstr s => simp at hv
                | vdict t2 => simp at hv
  | vnone => simp [wfRecs] at hr
  | vbool b => simp [wfRecs] at hr
  | vint n => simp [wfRecs] at hr
  | vfloat q => simp [wfRecs] at hr
  | vstr s => simp [wfRecs] at hr
  | vlist l => simp [wfRecs] at hr

theorem toList_ne_nil {q : String} (h : q ≠ "") : q.toList ≠ [] := by
  cases q with
  | mk data =>
      cases data with
      | nil => exact absurd rfl h
      | cons c cs => simp [String.toList]

theorem pyInStr_empty_hay {q : String} (h : q ≠ "") : pyInStr q "" = false := by
  unfold pyInStr infixAux
  cases hc : q.toList with
  | nil => exact absurd hc (toList_ne_nil h)
  | cons c cs => rfl

theorem load_items_no_none :
    ∀ (items : List PyVal) (prods : List (String × PyVal)) (names : List (String × String)),
      alookup prods "None" = none →
      alookup (load_items items prods names).1 "None" = none := by
  intro items
  induction items with
  | nil => intro prods names h; exact h
  | cons item rest ih =>
      intro prods names h
      cases item with
      | vstr s => exact ih prods names h
      | vdict l =>
          by_cases hp : pyStr (dGetD l "product_id_numeric" (dGetD l "product_id" (.vstr "N/A"))) = "None"
          · simp only [load_items, hp, ne_eq, not_true_eq_false, if_false]
            exact ih prods names h
          · have hins : alookup
                (dinsert prods (pyStr (dGetD l "product_id_numeric" (dGetD l "product_id" (.vstr "N/A")))) (.vdict l))
                "None" = none := by
              rw [alookup_dinsert_ne _ _ _ _ hp]; exact h
            simp only [load_items, hp, ne_eq, not_false_eq_true, if_true]
            cases hname : dGetD l "product_name" (.vstr "") with
            | vstr s => exact ih _ _ hins
            | vnone => exact hins
            | vbool b => exact hins
            | vint n => exact hins
            | vfloat r => exact hins
            | vlist xs => exact hins
            | vdict xs => exact hins
      | vnone => exact h
      | vbool b => exact h
      | vint n => exact h
      | vfloat r => exact h
      | vlist xs => exact h

theorem load_items_names_sub :
    ∀ (items : List PyVal) (prods : List (String × PyVal)) (names : List (String × String)),
      (∀ n pid, alookup names n = some pid → (alookup prods pid).isSome = true) →
      ∀ n pid, alookup (load_items items prods names).2 n = some pid →
        (alookup (load_items items prods names).1 pid).isSome = true := by
  intro items
  induction items with
  | nil => intro prods names h; exact h
  | cons item rest ih =>
      intro prods names h
      cases item with
      | vstr s => exact ih prods names h
      | vdict l =>
          by_cases hp : pyStr (dGetD l "product_id_numeric" (dGetD l "product_id" (.vstr "N/A"))) = "None"
          · simp only [load_items, hp, ne_eq, not_true_eq_false, if_false]
            exact ih prods names h
          · simp only [load_items, hp, ne_eq, not_false_eq_true, if_true]
            have hmono : ∀ n2 pid2, alookup names n2 = some pid2 →
                (alookup (dinsert prods
                  (pyStr (dGetD l "product_id_numeric" (dGetD l "product_id" (.vstr "N/A"))))
                  (.vdict l)) pid2).isSome = true := by
              intro n2 pid2 h2
              exact alookup_dinsert_isSome_mono _ _ (h n2 pid2 h2)
            cases hname : dGetD l "product_name" (.vstr "") with
            | vstr s =>
                apply ih
                intro n2 pid2 h2
                by_cases hn : pyStrip s = n2
                · subst hn
                  rw [alookup_dinsert_self] at h2
                  cases h2
                  simp [alookup_dinsert_self]
                · rw [alookup_dinsert_ne _ _ _ _ hn] at h2
                  exact hmono n2 pid2 h2
            | vnone => exact hmono
            | vbool b => exact hmono
            | vint n2 => exact hmono
            | vfloat r => exact hmono
            | vlist xs => exact hmono
            | vdict xs => exact hmono
      | vnone => exact h
      | vbool b => exact h
      | vint n2 => exact h
      | vfloat r => exact h
      | vlist xs => exact h

/-! ### Claim theorems -/

/-- Claim C9: for every query that is absent, empty, or whitespace-only
(anything whose lowercased-trimmed form is empty), `search_products`
returns the empty sequence immediately, whatever the state holds. -/
theorem C9_theorem (q : Option String) (st : St) (h : queryOf q = "") :
    search_products q st = .ok [] := by
  unfold search_products
  rw [if_pos h]

/-- Witness for C9 at an absent, an empty, and a whitespace-only query. -/
theorem C9_witness :
    (queryOf none = "" ∧ queryOf (some "") = "" ∧ queryOf (some "   ") = "") ∧
    search_products (some "   ") stShoes = .ok [] :=
  ⟨⟨rfl, rfl, rfl⟩, C9_theorem (some "   ") stShoes rfl⟩

/-- Claim C8: whenever `search_products` returns a sequence (does not
raise), that sequence has length at most 20, for every query and state. -/
theorem C8_theorem (q : Option String) (st : St) (l : List NormProd)
    (h : search_products q st = .ok l) : l.length ≤ 20 := by
  unfold search_products at h
  split at h
  · injection h with h2
    simp [← h2]
  · split at h
    · exact Except.noConfusion h
    · split at h
      · split at h
        · exact Except.noConfusion h
        · split at h
          · unfold fallbackRender at h
            split at h
            · exact Except.noConfusion h
            · have h2 := emap_ok_length h
              rw [h2, List.length_take]
              omega
          · have h2 := emap_ok_length h
            rw [h2, List.length_take]
            omega
      · have h2 := emap_ok_length h
        rw [h2, List.length_map, List.length_take]
        omega

/-- Witness for C8: the spec's worked example, which returns both shoes. -/
theorem C8_witness :
    search_products (some "shoe") stShoes =
      .ok [normalize_product recA, normalize_product recB] ∧
    [normalize_product recA, normalize_product recB].length ≤ 20 :=
  ⟨rfl, C8_theorem (some "shoe") stShoes _ rfl⟩

/-- Claim C7: `normalize_product` is a total function whose list price is
the parsed value of `actual_price` (0 on parse failure or absence) and
whose discounted price is the parsed value of `discounted_price`, falling
back to the already-resolved list price — not 0 — on parse failure or
absence. -/
theorem C7_theorem (p : List (String × PyVal)) :
    (normalize_product p).prices =
      (match alookup p "actual_price" with
       | some v => match pyFloatE v with | .ok r => r | .error _ => 0
       | none => 0) ∧
    (normalize_product p).discounted_price =
      (match alookup p "discounted_price" with
       | some v =>
          match pyFloatE v with
          | .ok r => r
          | .error _ => (normalize_product p).prices
       | none => (normalize_product p).prices) := by
  constructor
  · simp only [normalize_product, dGetD]
    cases ha : alookup p "actual_price" with
    | none => simp [pyFloatE]
    | some v =>
        cases hv : pyFloatE v with
        | ok r => simp [hv]
        | error e => simp [hv]
  · simp only [normalize_product, dGetD]
    cases ha : alookup p "actual_price" with
    | none =>
        cases hd : alookup p "discounted_price" with
        | none => simp [pyFloatE]
        | some v =>
            cases hv : pyFloatE v with
            | ok r => simp [hv]
            | error e => simp [hv, pyFloatE]
    | some v0 =>
        cases hd : alookup p "discounted_price" with
        | none => simp [pyFloatE]
        | some v =>
            cases hv : pyFloatE v with
            | ok r => simp [hv]
            | error e => simp [hv, pyFloatE]

/-- Counterexample to claim C4 as stated: a record with no id field derives
the id `"N/A"`, yet the loader's guard `if pid != "None"` keeps it, so the
catalog gains the key `"N/A"` — the claim says such records are excluded. -/
theorem C4_counterexample :
    pyStr (dGetD [] "product_id_numeric" (dGetD [] "product_id" (.vstr "N/A"))) = "N/A" ∧
    alookup (load_core (some (.vlist [.vdict []])) none).products "N/A" = some (.vdict []) :=
  ⟨rfl, rfl⟩

/-- Claim C4 as amended: only a derived id stringifying to `"None"` is
excluded by the loader; consequently no catalog key is `"None"` after any
load (records with derived id `"N/A"` are kept under the key `"N/A"`). -/
theorem C4_theorem (matrixRaw recRaw : Option PyVal) :
    alookup (load_core matrixRaw recRaw).products "None" = none := by
  cases matrixRaw with
  | none => rfl
  | some raw => exact load_items_no_none _ [] [] rfl

/-- Claim C10: after a load, every value of the name index is a key of the
catalog, so stage 2's chained lookup of a stub name through the name index
and then the catalog never misses for a name present in the name index. -/
theorem C10_theorem (matrixRaw recRaw : Option PyVal) (n pid : String)
    (h : alookup (load_core matrixRaw recRaw).names n = some pid) :
    ∃ p, alookup (load_core matrixRaw recRaw).products pid = some p := by
  cases matrixRaw with
  | none => simp [load_core, alookup] at h
  | some raw =>
      have hbase : ∀ n2 pid2, alookup ([] : List (String × String)) n2 = some pid2 →
          (alookup ([] : List (String × PyVal)) pid2).isSome = true := by
        intro n2 pid2 hx
        simp [alookup] at hx
      exact Option.isSome_iff_exists.mp (load_items_names_sub _ [] [] hbase n pid h)

/-- Witness for C10: loading one record binds its trimmed name to its id,
and that id is a catalog key. -/
theorem C10_witness :
    alookup (load_core (some rawW10) none).names "A" = some "1" ∧
    ∃ p, alookup (load_core (some rawW10) none).products "1" = some p :=
  ⟨rfl, C10_theorem (some rawW10) none "A" "1" rfl⟩

/-- Counterexample to claim C5 as stated: the query `"None"` (normalized to
`"none"`) brand-exact-matches a record that has NO brand field, because the
code compares against `str(p.get("Brand")) = "None"` lowercased — so stage
1 returns that record, where the claim requires no brand match. -/
theorem C5_counterexample :
    alookup recNoB "Brand" = none ∧
    search_products (some "None") stC5 = .ok [normalize_product recNoB] ∧
    ([normalize_product recNoB] : List NormProd) ≠ [] :=
  ⟨rfl, rfl, by simp⟩

/-- Claim C5 as amended: a record with no name field never name-matches a
non-empty query (the missing name reads as `""`), but a record with no
brand field has its brand read as the string `"None"`: it brand-exact-
matches exactly the queries equal to `"none"` and brand-substring-matches
exactly the queries that are substrings of `"none"`. -/
theorem C5_theorem (query : String) (l : List (String × PyVal))
    (hb : alookup l "Brand" = none) :
    brandCheck query (.vdict l) = .ok (query == "none") ∧
    brandSubE query (.vdict l) = .ok (pyInStr query "none") ∧
    (alookup l "product_name" = none → query ≠ "" →
      nameCheckE query (.vdict l) = .ok false) := by
  have h1 : pyLower (pyStr PyVal.vnone) = "none" := rfl
  refine ⟨?_, ?_, ?_⟩
  · simp [brandCheck, dGetD, hb, h1]
  · simp [brandSubE, dGetD, hb, h1]
  · intro hn hq
    have h2 : pyLower "" = "" := rfl
    simp [nameCheckE, dGetD, hn, h2, pyInStr_empty_hay hq]

/-- Witness for C5 on the empty record: no brand, no name. -/
theorem C5_witness :
    alookup ([] : List (String × PyVal)) "Brand" = none ∧
    (brandCheck "no" (.vdict []) = .ok ("no" == "none") ∧
     brandSubE "no" (.vdict []) = .ok (pyInStr "no" "none") ∧
     (alookup ([] : List (String × PyVal)) "product_name" = none → "no" ≠ "" →
       nameCheckE "no" (.vdict []) = .ok false)) :=
  ⟨rfl, C5_theorem "no" [] rfl⟩

/-- Counterexample to claim C6 as stated: loading a file whose record has a
valid id but a non-string name stores the record before the loader's
name-handling raises (caught there), and a later search raises
`AttributeError` at `p.get("product_name", "").lower()` — it does not
degrade to an empty value. -/
theorem C6_counterexample :
    search_products (some "a") (load_core (some rawBad) none) = .error () := rfl

/-- Claim C1: for a non-empty query over a catalog of records, if some
record's brand (as the search compares it: `str()` of the field,
lowercased) equals the normalized query, then the search returns exactly
the first up-to-20 brand-matching records in catalog order, normalized,
and every returned entry comes from a brand-matching record — never from a
name-only substring match. -/
theorem C1_theorem (q : Option String) (st : St)
    (hd : st.products.all (fun x => x.2.isDict) = true)
    (hq : queryOf q ≠ "")
    (hx : ∃ x ∈ st.products, queryOf q = brandLowerOf x.2) :
    search_products q st =
      .ok (((st.products.filter fun x => queryOf q == brandLowerOf x.2).take 20).map
        fun x => normalize_product (entriesOf x.2)) ∧
    ∀ x ∈ (st.products.filter fun x => queryOf q == brandLowerOf x.2).take 20,
      queryOf q = brandLowerOf x.2 := by
  simp only [List.all_eq_true] at hd
  have h1 : stage1 (queryOf q) st.products =
      .ok (st.products.filter fun x => queryOf q == brandLowerOf x.2) :=
    stage1_wf hd
  have hne : (st.products.filter fun x => queryOf q == brandLowerOf x.2).isEmpty = false := by
    obtain ⟨x, hxm, hxe⟩ := hx
    have hmem : x ∈ st.products.filter (fun x => queryOf q == brandLowerOf x.2) :=
      List.mem_filter.mpr ⟨hxm, by simp [hxe]⟩
    cases hcase : (st.products.filter fun x => queryOf q == brandLowerOf x.2).isEmpty with
    | false => rfl
    | true =>
        rw [List.isEmpty_iff] at hcase
        rw [hcase] at hmem
        simp at hmem
  constructor
  · have hmap : emap normEx
        (((st.products.filter fun x => queryOf q == brandLowerOf x.2).take 20).map
          fun x => x.2) =
        .ok ((((st.products.filter fun x => queryOf q == brandLowerOf x.2).take 20).map
          fun x => x.2).map fun p => normalize_product (entriesOf p)) := by
      apply emap_ok
      intro p hp2
      obtain ⟨x, hx2, hpx⟩ := List.mem_map.mp hp2
      have hx3 : x ∈ st.products := List.mem_of_mem_filter (List.take_subset _ _ hx2)
      rw [← hpx]
      exact normEx_entries (hd x hx3)
    have hgoal : search_products q st =
        emap normEx (((st.products.filter fun x => queryOf q == brandLowerOf x.2).take 20).map
          fun x => x.2) := by
      unfold search_products
      rw [if_neg hq, h1]
      simp [hne]
    rw [hgoal, hmap]
    simp only [List.map_map]
    rfl
  · intro x hx2
    have hxf := List.mem_filter.mp (List.take_subset _ _ hx2)
    exact eq_of_beq hxf.2

/-- Witness for C1: searching `"Acme "` over the worked-example catalog. -/
theorem C1_witness :
    stShoes.products.all (fun x => x.2.isDict) = true ∧
    queryOf (some "Acme ") ≠ "" ∧
    (∃ x ∈ stShoes.products, queryOf (some "Acme ") = brandLowerOf x.2) ∧
    search_products (some "Acme ") stShoes =
      .ok (((stShoes.products.filter fun x => queryOf (some "Acme ") == brandLowerOf x.2).take
        20).map fun x => normalize_product (entriesOf x.2)) :=
  ⟨rfl, by decide, ⟨("1", .vdict recA), by simp [stShoes], rfl⟩,
   (C1_theorem (some "Acme ") stShoes rfl (by decide)
     ⟨("1", .vdict recA), by simp [stShoes], rfl⟩).1⟩

theorem search_eq_brand {q : Option String} {st : St} {bm : List (String × PyVal)}
    (hq : queryOf q ≠ "")
    (h1 : stage1 (queryOf q) st.products = .ok bm) (hbm : bm.isEmpty = false) :
    search_products q st = emap normEx ((bm.take 20).map fun x => x.2) := by
  unfold search_products
  rw [if_neg hq, h1]
  simp [hbm]

theorem search_eq_rec {q : Option String} {st : St} {bm : List (String × PyVal)}
    {results : List PyVal} (hq : queryOf q ≠ "")
    (h1 : stage1 (queryOf q) st.products = .ok bm) (hbm : bm.isEmpty = true)
    (h2 : stage2 (queryOf q) st = .ok results) (hres : results.isEmpty = false) :
    search_products q st = emap normEx (results.take 20) := by
  unfold search_products
  rw [if_neg hq, h1]
  simp [hbm, h2, hres]

theorem search_eq_fallback {q : Option String} {st : St} {bm : List (String × PyVal)}
    {results : List PyVal} (hq : queryOf q ≠ "")
    (h1 : stage1 (queryOf q) st.products = .ok bm) (hbm : bm.isEmpty = true)
    (h2 : stage2 (queryOf q) st = .ok results) (hres : results.isEmpty = true) :
    search_products q st = fallbackRender (queryOf q) st.products := by
  unfold search_products
  rw [if_neg hq, h1]
  simp [hbm, h2, hres]

theorem emap_normEx_ok {prods : List (String × PyVal)} {l : List PyVal}
    (hp : ∀ x ∈ prods, wfRecord x.2 = true)
    (hsub : ∀ p ∈ l, ∃ pid, (pid, p) ∈ prods) :
    emap normEx l = .ok (l.map fun p => normalize_product (entriesOf p)) := by
  apply emap_ok
  intro p hp2
  obtain ⟨pid, hmem⟩ := hsub p hp2
  exact normEx_entries (wfRecord_isDict (hp (pid, p) hmem))

/-- Claim C6 as amended: the loader and `normalize_product` are modelled as
total functions (the loader catches its own exceptions), and on any
well-formed state — records are dicts whose `product_name` is a string
when present, name-index values are catalog keys, and the recommendation
table is a dict of lists of stubs with hashable names — `search_products`
and `get_top_products` never raise.  Without well-formedness the search
can raise, as `C6_counterexample` shows on a loadable state. -/
theorem C6_theorem (q : Option String) (st : St) (hw : wfSt st = true) :
    (∃ l, search_products q st = .ok l) ∧ (∃ l, get_top_products st = .ok l) := by
  have hw2 := hw
  simp only [wfSt, Bool.and_eq_true, List.all_eq_true] at hw2
  obtain ⟨hp, hn, hr⟩ := hw2
  constructor
  · by_cases hq : queryOf q = ""
    · exact ⟨[], by unfold search_products; rw [if_pos hq]⟩
    · have h1 : stage1 (queryOf q) st.products =
          .ok (st.products.filter fun x => queryOf q == brandLowerOf x.2) :=
        stage1_wf (fun x hx => wfRecord_isDict (hp x hx))
      cases hbm : (st.products.filter fun x => queryOf q == brandLowerOf x.2).isEmpty with
      | false =>
          have hsub : ∀ p ∈ ((st.products.filter fun x =>
              queryOf q == brandLowerOf x.2).take 20).map (fun x => x.2),
              ∃ pid, (pid, p) ∈ st.products := by
            intro p hp2
            obtain ⟨x, hx2, hpx⟩ := List.mem_map.mp hp2
            have hx3 : x ∈ st.products := List.mem_of_mem_filter (List.take_subset _ _ hx2)
            exact ⟨x.1, by rw [← hpx]; simpa using hx3⟩
          exact ⟨_, by rw [search_eq_brand hq h1 hbm, emap_normEx_ok hp hsub]⟩
      | true =>
          have h2 : stage2 (queryOf q) st = .ok (stage2Spec (queryOf q) st) := stage2_wf hw
          cases hres : (stage2Spec (queryOf q) st).isEmpty with
          | false =>
              have hsub : ∀ p ∈ (stage2Spec (queryOf q) st).take 20,
                  ∃ pid, (pid, p) ∈ st.products :=
                fun p hp2 => stage2Spec_mem (List.take_subset _ _ hp2)
              exact ⟨_, by rw [search_eq_rec hq h1 hbm h2 hres, emap_normEx_ok hp hsub]⟩
          | true =>
              have h3 : fallbackRender (queryOf q) st.products =
                  .ok ((((scoredSpec (queryOf q) st.products).filter (fun y => y.1 == 15) ++
                         (scoredSpec (queryOf q) st.products).filter (fun y => y.1 == 10) ++
                         (scoredSpec (queryOf q) st.products).filter (fun y => y.1 == 5)).take
                        20).map (fun y => normalize_product (entriesOf y.2))) :=
                fallbackRender_wf hp
              exact ⟨_, by rw [search_eq_fallback hq h1 hbm h2 hres]; exact h3⟩
  · cases hpe : st.products.isEmpty with
    | true => exact ⟨[], by unfold get_top_products; simp [hpe]⟩
    | false =>
        have hsub : ∀ p ∈ ((st.products.map fun x => x.2).take 20),
            ∃ pid, (pid, p) ∈ st.products := by
          intro p hp2
          obtain ⟨x, hx2, hpx⟩ := List.mem_map.mp (List.take_subset _ _ hp2)
          exact ⟨x.1, by rw [← hpx]; simpa using hx2⟩
        exact ⟨_, by unfold get_top_products; simp [hpe, emap_normEx_ok hp hsub]; rfl⟩

/-- Witness for C6: the worked-example state is well-formed and both
endpoints succeed on it. -/
theorem C6_witness :
    wfSt stShoes = true ∧
    ((∃ l, search_products (some "shoe") stShoes = .ok l) ∧
     (∃ l, get_top_products stShoes = .ok l)) :=
  ⟨rfl, C6_theorem (some "shoe") stShoes rfl⟩

/-- Claim C3: for a non-empty query on which stages 1 and 2 produce
nothing, the search returns the positively scored records (+10 name
substring, +5 brand substring, 15 when both), sorted descending by score
with ties in catalog iteration order — equivalently the 15-scored, then
10-scored, then 5-scored records, each group in catalog order — cut to the
first 20 and normalized. -/
theorem C3_theorem (q : Option String) (st : St)
    (hp : st.products.all (fun x => wfRecord x.2) = true)
    (hq : queryOf q ≠ "")
    (h1 : stage1 (queryOf q) st.products = .ok [])
    (h2 : stage2 (queryOf q) st = .ok []) :
    search_products q st =
      .ok ((((scoredSpec (queryOf q) st.products).filter (fun y => y.1 == 15) ++
             (scoredSpec (queryOf q) st.products).filter (fun y => y.1 == 10) ++
             (scoredSpec (queryOf q) st.products).filter (fun y => y.1 == 5)).take 20).map
           (fun y => normalize_product (entriesOf y.2))) := by
  simp only [List.all_eq_true] at hp
  rw [search_eq_fallback hq h1 rfl h2 rfl]
  exact fallbackRender_wf hp

/-- Witness for C3: the spec's worked example — `search("shoe")` reaches
the fallback and scores both shoes 10, preserving catalog order. -/
theorem C3_witness :
    (stShoes.products.all (fun x => wfRecord x.2) = true ∧
     queryOf (some "shoe") ≠ "" ∧
     stage1 (queryOf (some "shoe")) stShoes.products = .ok [] ∧
     stage2 (queryOf (some "shoe")) stShoes = .ok []) ∧
    search_products (some "shoe") stShoes =
      .ok ((((scoredSpec (queryOf (some "shoe")) stShoes.products).filter
              (fun y => y.1 == 15) ++
             (scoredSpec (queryOf (some "shoe")) stShoes.products).filter
              (fun y => y.1 == 10) ++
             (scoredSpec (queryOf (some "shoe")) stShoes.products).filter
              (fun y => y.1 == 5)).take 20).map
           (fun y => normalize_product (entriesOf y.2))) :=
  ⟨⟨rfl, by decide, rfl, rfl⟩,
   C3_theorem (some "shoe") stShoes rfl (by decide) rfl rfl⟩

/-- Counterexample to claim C2 as stated: in `stC2` the anchor is the
empty-string id `""`, which IS a key of the recommendation table and whose
stubs resolve to the `dBe` record — but `if matched_id` treats `""` as
falsy, so the code skips stage 2 and returns the stage-3 result
(`normalize_product dAe`), not the recommendation the claim predicts. -/
theorem C2_counterexample :
    anchorSpec (queryOf (some "x")) stC2.products = some "" ∧
    alookup (recTable stC2) "" = some (.vlist [stubY]) ∧
    resolvedSpec stC2 [stubY] = [.vdict dBe] ∧
    search_products (some "x") stC2 = .ok [normalize_product dAe] ∧
    normalize_product dAe ≠ normalize_product dBe := by
  refine ⟨rfl, rfl, rfl, rfl, ?_⟩
  intro h
  exact absurd (congrArg NormProd.p_id h) (by decide)

/-- Claim C2 as amended: with no brand match and a non-empty query, the
anchor is the first catalog record whose name contains the query; if that
anchor is non-empty (Python truthiness) and a key of the recommendation
table, the resolvable stubs' records are returned (up to 20, normalized,
in recommendation order, skipping unresolvable stubs) when any resolve;
with no anchor, an empty (falsy) anchor, an anchor that is not a key, or
no resolvable stub, stage 3 runs instead. -/
theorem C2_theorem (q : Option String) (st : St)
    (hw : wfSt st = true)
    (hq : queryOf q ≠ "")
    (hb : st.products.all (fun x => !(queryOf q == brandLowerOf x.2)) = true) :
    (∀ a stubs, anchorSpec (queryOf q) st.products = some a → a ≠ "" →
        alookup (recTable st) a = some (.vlist stubs) →
        resolvedSpec st stubs ≠ [] →
        search_products q st =
          .ok (((resolvedSpec st stubs).take 20).map
            fun p => normalize_product (entriesOf p))) ∧
    (anchorSpec (queryOf q) st.products = none →
        search_products q st = fallbackRender (queryOf q) st.products) ∧
    (∀ a, anchorSpec (queryOf q) st.products = some a →
        (a = "" ∨ alookup (recTable st) a = none ∨
          ∀ stubs, alookup (recTable st) a = some (.vlist stubs) →
            resolvedSpec st stubs = []) →
        search_products q st = fallbackRender (queryOf q) st.products) := by
  have hw2 := hw
  simp only [wfSt, Bool.and_eq_true, List.all_eq_true] at hw2
  obtain ⟨hp, hn, hr⟩ := hw2
  have h1 : stage1 (queryOf q) st.products = .ok [] := by
    have h1' : stage1 (queryOf q) st.products =
        .ok (st.products.filter fun x => queryOf q == brandLowerOf x.2) :=
      stage1_wf (fun x hx => wfRecord_isDict (hp x hx))
    rw [h1']
    congr 1
    rw [List.filter_eq_nil_iff]
    intro x hx
    have hbx := List.all_eq_true.mp hb x hx
    simp only [Bool.not_eq_true'] at hbx
    simp [hbx]
  have h2 : stage2 (queryOf q) st = .ok (stage2Spec (queryOf q) st) := stage2_wf hw
  refine ⟨?_, ?_, ?_⟩
  · intro a stubs hA ha hL hnres
    have hs2 : stage2Spec (queryOf q) st = resolvedSpec st stubs := by
      unfold stage2Spec
      rw [hA]
      simp [ha, hL]
    rw [hs2] at h2
    have hres : (resolvedSpec st stubs).isEmpty = false := by
      cases hcase : (resolvedSpec st stubs).isEmpty with
      | false => rfl
      | true => rw [List.isEmpty_iff] at hcase; exact absurd hcase hnres
    have hsub : ∀ p ∈ (resolvedSpec st stubs).take 20, ∃ pid, (pid, p) ∈ st.products := by
      intro p hp2
      have hmem : p ∈ resolvedSpec st stubs := List.take_subset _ _ hp2
      rw [← hs2] at hmem
      exact stage2Spec_mem hmem
    rw [search_eq_rec hq h1 rfl h2 hres]
    exact emap_normEx_ok hp hsub
  · intro hA
    have hs2 : stage2Spec (queryOf q) st = [] := by
      unfold stage2Spec
      rw [hA]
    rw [hs2] at h2
    exact search_eq_fallback hq h1 rfl h2 rfl
  · intro a hA hdisj
    have hs2 : stage2Spec (queryOf q) st = [] := by
      unfold stage2Spec
      rw [hA]
      rcases hdisj with ha | hnone | hall
      · simp [ha]
      · by_cases ha : a = ""
        · simp [ha]
        · simp [ha, hnone]
      · by_cases ha : a = ""
        · simp [ha]
        · simp only [if_neg ha]
          cases hL : alookup (recTable st) a with
          | none => rfl
          | some v =>
              cases v with
              | vlist stubs => exact hall stubs hL
              | vnone => rfl
              | vbool b => rfl
              | vint n => rfl
              | vfloat r => rfl
              | vstr s => rfl
              | vdict t => rfl
    rw [hs2] at h2
    exact search_eq_fallback hq h1 rfl h2 rfl

/-- Witness for C2: searching `"red"` over `stRecW` anchors at `"1"` and
returns the recommended `"blue hat"` record through the name index. -/
theorem C2_witness :
    (wfSt stRecW = true ∧ queryOf (some "red") ≠ "" ∧
     stRecW.products.all (fun x => !(queryOf (some "red") == brandLowerOf x.2)) = true) ∧
    (anchorSpec (queryOf (some "red")) stRecW.products = some "1" ∧
     alookup (recTable stRecW) "1" = some (.vlist [stubW]) ∧
     resolvedSpec stRecW [stubW] ≠ []) ∧
    search_products (some "red") stRecW =
      .ok (((resolvedSpec stRecW [stubW]).take 20).map
        fun p => normalize_product (entriesOf p)) :=
  ⟨⟨rfl, by decide, rfl⟩,
   ⟨rfl, rfl, by simp [show resolvedSpec stRecW [stubW] = [.vdict recR2] from rfl]⟩,
   (C2_theorem (some "red") stRecW rfl (by decide) rfl).1 "1" [stubW] rfl (by decide) rfl
     (by simp [show resolvedSpec stRecW [stubW] = [.vdict recR2] from rfl])⟩
